import Mathlib

/-
Verification development for a browser time-tracking application
(task list, one global timer, local-storage persistence, and a
statistics view aggregating focus time per day / week / month).

The embedding models:
  * the ECMAScript `Date` primitives the code relies on
    (`getDay`, `getDate`, `getMonth`, `getFullYear`, `setDate`,
    `setMonth`, `setHours`, and the `Date(year, month, day)`
    constructor), as functions on integer timestamps
    (milliseconds since the Unix epoch, local timezone taken as UTC,
    proleptic Gregorian calendar as ECMA-262 prescribes);
  * the utility functions of `utils.ts` (`isSameDay`,
    `getStartOfWeek`, `getEndOfWeek`, `getStartOfMonth`,
    `getEndOfMonth`, `getCalendarGrid`);
  * the application state and its handlers from `App.tsx`
    (`addTask`, `deleteTask`, `startTimer`, `stopTimer`,
    `toggleTimer`, `getTaskTodayStats`, the interval tick effect,
    and rehydration from persisted storage);
  * the statistics aggregation of `components/Stats.tsx`
    (the `data` memo and the prev/next date navigation);
  * the insight service of `services/geminiService.ts`.

JavaScript truthiness tests on nullable values are modelled
faithfully: a `null` or empty string is falsy, and a `null` or `0`
number is falsy.
-/

namespace FocusFlow

/-! ## Definitions

### Calendar arithmetic: days since epoch to civil dates and back

ECMA-262 defines the `Date` field accessors through the proleptic
Gregorian calendar.  We realise the two conversions with the
standard era-based algorithms (1 era = 400 years = 146097 days);
`/` and `%` on `Int` are Euclidean, which agrees with floor
division for the positive divisors used here, matching the
floor-based day arithmetic of ECMA-262. -/

/-- Day number (within an era of 146097 days) on which civil year `k`
of the era (0 ≤ k ≤ 399, March-based) starts. -/
def yearStartOfEra (k : Int) : Int := 365 * k + k / 4 - k / 100

/-- Numerator used to recover the year-of-era from a day-of-era. -/
def yoeNum (doe : Int) : Int := doe - doe / 1460 + doe / 36524 - doe / 146096

/-- Year-of-era (0 ≤ result ≤ 399) of a day-of-era (0 ≤ doe ≤ 146096). -/
def yoeOfDoe (doe : Int) : Int := yoeNum doe / 365

/-- Last day-of-era belonging to year-of-era `k`. -/
def eraHi (k : Int) : Int := if k = 399 then 146096 else yearStartOfEra (k + 1) - 1

/-- Boolean check, for one year-of-era, that `yoeOfDoe` answers `k` on
the first and last day of year `k` and that the year bounds are in range. -/
def eraCheck (n : Nat) : Bool :=
  let k : Int := n
  (yoeOfDoe (yearStartOfEra k) == k) && (yoeOfDoe (eraHi k) == k) &&
  decide (0 ≤ yearStartOfEra k) && decide (yearStartOfEra k ≤ 145731) &&
  decide (eraHi k ≤ 146096) && decide (eraHi k ≤ yearStartOfEra k + 365) &&
  decide (yearStartOfEra k ≤ eraHi k)

/-- Civil date `(year, month 1–12, day 1–31)` of a day number
(days since 1970-01-01, proleptic Gregorian). -/
def civilFromDays (z : Int) : Int × Int × Int :=
  let era := (z + 719468) / 146097
  let doe := (z + 719468) % 146097
  let yoe := yoeOfDoe doe
  let doy := doe - yearStartOfEra yoe
  let mp := (5 * doy + 2) / 153
  let d := doy - (153 * mp + 2) / 5 + 1
  let m := mp + (if mp < 10 then 3 else -9)
  (if m ≤ 2 then yoe + era * 400 + 1 else yoe + era * 400, m, d)

/-- Day number (days since 1970-01-01) of a civil date
`(year, month 1–12, day)`; the day may lie outside 1–31, in which
case it counts on linearly from the first of the month, exactly as
ECMAScript's `MakeDay` does. -/
def daysFromCivil (y m d : Int) : Int :=
  let y2 := if m ≤ 2 then y - 1 else y
  let era := y2 / 400
  let yoe := y2 - era * 400
  let mp := m + (if 2 < m then -3 else 9)
  let doy := (153 * mp + 2) / 5 + d - 1
  era * 146097 + (yearStartOfEra yoe + doy) - 719468

/-! ### The ECMAScript `Date` interface on integer timestamps -/

/-- Milliseconds per day (`msPerDay` of ECMA-262). -/
def msPerDay : Int := 86400000

/-- ECMA-262 `Day(t)`: the day number containing timestamp `t`. -/
def dayNumber (t : Int) : Int := t / msPerDay

/-- ECMA-262 `TimeWithinDay(t)`. -/
def timeWithinDay (t : Int) : Int := t % msPerDay

/-- `Date.prototype.getDay`: weekday, 0 = Sunday … 6 = Saturday
(day 0, 1970-01-01, was a Thursday = 4). -/
def getDay (t : Int) : Int := (dayNumber t + 4) % 7

/-- `Date.prototype.getFullYear`. -/
def getFullYear (t : Int) : Int := (civilFromDays (dayNumber t)).1

/-- `Date.prototype.getMonth`: zero-based month, 0 = January. -/
def getMonth (t : Int) : Int := (civilFromDays (dayNumber t)).2.1 - 1

/-- `Date.prototype.getDate`: day of month, 1-based. -/
def getDate (t : Int) : Int := (civilFromDays (dayNumber t)).2.2

/-- ECMA-262 `MakeDay(year, month, date)` with zero-based month:
overflowing months roll over into the year, and the date counts on
from the first of the month. -/
def makeDay (y m date : Int) : Int :=
  daysFromCivil (y + m / 12) (m % 12 + 1) 1 + (date - 1)

/-- The `new Date(year, month, day, hours, minutes, seconds, ms)`
constructor (month zero-based, all fields normalising overflow).
The legacy two-digit-year rule of the constructor (years 0–99 read
as 1900–1999) is not modelled: it only relabels which century a
grid or cursor lands in and is unreachable from the application's
inputs; no property proved below depends on it. -/
def mkDate (y m d hh mi ss ms : Int) : Int :=
  makeDay y m d * msPerDay + (hh * 3600000 + mi * 60000 + ss * 1000 + ms)

/-- `Date.prototype.setDate(n)`: replace the day-of-month by `n`
(with overflow into adjacent months), keeping the time of day. -/
def setDate (t n : Int) : Int :=
  makeDay (getFullYear t) (getMonth t) n * msPerDay + timeWithinDay t

/-- `Date.prototype.setMonth(m)`: replace the month by `m`
(zero-based, with overflow), keeping day-of-month and time of day;
a day-of-month larger than the target month overflows further. -/
def setMonth (t m : Int) : Int :=
  makeDay (getFullYear t) m (getDate t) * msPerDay + timeWithinDay t

/-- `Date.prototype.setHours(hh, mi, ss, ms)`: keep the day, replace
the time of day. -/
def setHours (t hh mi ss ms : Int) : Int :=
  dayNumber t * msPerDay + (hh * 3600000 + mi * 60000 + ss * 1000 + ms)

/-! ### `utils.ts` -/

/-- `isSameDay` of `utils.ts`: compares the year, month and
day-of-month fields of the two dates. -/
def isSameDay (t1 t2 : Int) : Bool :=
  getFullYear t1 == getFullYear t2 && getMonth t1 == getMonth t2 &&
    getDate t1 == getDate t2

/-- `getStartOfWeek` of `utils.ts`: Monday-based week start; when the
weekday is Sunday (index 0) the offset to Monday is `-6`, otherwise
`1 - weekday`; the time is then cleared to 00:00:00.000. -/
def getStartOfWeek (t : Int) : Int :=
  let day := getDay t
  let diff := getDate t - day + (if day = 0 then -6 else 1)
  setHours (setDate t diff) 0 0 0 0

/-- `getEndOfWeek` of `utils.ts`: start of week plus six days, clamped
to 23:59:59.999. -/
def getEndOfWeek (t : Int) : Int :=
  let start := getStartOfWeek t
  setHours (setDate start (getDate start + 6)) 23 59 59 999

/-- `getStartOfMonth` of `utils.ts`: `new Date(y, m, 1)`. -/
def getStartOfMonth (t : Int) : Int :=
  mkDate (getFullYear t) (getMonth t) 1 0 0 0 0

/-- `getEndOfMonth` of `utils.ts`: `new Date(y, m + 1, 0)` (day 0 of
the next month = last day of this month) at 23:59:59.999. -/
def getEndOfMonth (t : Int) : Int :=
  setHours (mkDate (getFullYear t) (getMonth t + 1) 0 0 0 0 0) 23 59 59 999

/-- `getCalendarGrid` of `utils.ts`: the 42-cell (6 × 7) calendar
grid for the given zero-based month, starting on the Sunday on or
before the first of the month. -/
def getCalendarGrid (year month : Int) : List Int :=
  let firstDayOfMonth := mkDate year month 1 0 0 0 0
  let startDayOfWeek := getDay firstDayOfMonth
  let startDate := setDate firstDayOfMonth (getDate firstDayOfMonth - startDayOfWeek)
  (List.range 42).map fun i => setDate startDate (getDate startDate + (i : Int))

/-! ### Data model (`types.ts`) -/

/-- `TimeSession` of `types.ts`; `endTime = none` models `null`
("currently running"). -/
structure TimeSession where
  id : String
  startTime : Int
  endTime : Option Int
  duration : Int
  deriving DecidableEq

/-- `Task` of `types.ts`. -/
structure Task where
  id : String
  title : String
  color : String
  sessions : List TimeSession
  createdAt : Int
  deriving DecidableEq

/-- `Period` of `types.ts`. -/
inductive Period where
  | Today
  | Week
  | Month
  deriving DecidableEq

/-! ### Application state and handlers (`App.tsx`) -/

/-- The state held by the `App` component: the task collection, the
global active-task pointer, the running session's start instant, and
the displayed elapsed time of the running session. -/
structure AppState where
  tasks : List Task
  activeTaskId : Option String
  startTime : Option Int
  currentSessionDuration : Int
  deriving DecidableEq

/-- JavaScript truthiness of a nullable string: `null` and `""` are
falsy. -/
def truthyStr : Option String → Bool
  | none => false
  | some s => !(s == "")

/-- Initial state computed from persisted storage (the lazy `useState`
initialisers of `App.tsx`): tasks as parsed (or `[]` when the key is
absent), the active id as stored (string or `null`), the start time
as stored (integer or `null`). -/
def rehydrate (savedTasks : Option (List Task)) (savedActiveId : Option String)
    (savedStartTime : Option Int) : AppState :=
  { tasks := savedTasks.getD [],
    activeTaskId := savedActiveId,
    startTime := savedStartTime,
    currentSessionDuration := 0 }

/-- `stopTimer` of `App.tsx`.  The guard `if (!activeTaskId ||
!startTime) return;` is a truthiness test, so a `null` (or empty)
id and a `null` (or `0`) start time both make it a no-op.  Otherwise
the closed session `{id, startTime, endTime, duration}` is appended
to the active task and the pointer, start time and display duration
are cleared.  The fresh session id (`crypto.randomUUID()`) and the
instant `Date.now()` are passed as parameters. -/
def stopTimer (now : Int) (sid : String) (st : AppState) : AppState :=
  match st.activeTaskId, st.startTime with
  | some activeId, some startT =>
    if activeId == "" || startT == 0 then st
    else
      { st with
        tasks := st.tasks.map fun t =>
          if t.id == activeId then
            { t with sessions := t.sessions ++
                [{ id := sid, startTime := startT, endTime := some now,
                   duration := now - startT }] }
          else t,
        activeTaskId := none,
        startTime := none,
        currentSessionDuration := 0 }
  | _, _ => st

/-- `startTimer` of `App.tsx`: `if (activeTaskId) stopTimer();` then
set the active pointer and the start instant.  The two `Date.now()`
reads inside one synchronous handler are modelled as the single
instant `now`. -/
def startTimer (now : Int) (sid : String) (taskId : String) (st : AppState) : AppState :=
  let st1 := if truthyStr st.activeTaskId then stopTimer now sid st else st
  { st1 with activeTaskId := some taskId, startTime := some now }

/-- `toggleTimer` of `App.tsx`. -/
def toggleTimer (now : Int) (sid : String) (taskId : String) (st : AppState) : AppState :=
  if st.activeTaskId == some taskId then stopTimer now sid st
  else startTimer now sid taskId st

/-- `deleteTask` of `App.tsx`: stop first when the deleted task is
active, then remove it.  (In the source the final `setTasks` uses the
pre-stop task array, but the only task `stopTimer` modified is the
one being filtered out, so the sequential composition gives the same
final state.) -/
def deleteTask (now : Int) (sid : String) (id : String) (st : AppState) : AppState :=
  let st1 := if st.activeTaskId == some id then stopTimer now sid st else st
  { st1 with tasks := st1.tasks.filter fun t => !(t.id == id) }

/-- The whitespace set of JavaScript's `String.prototype.trim`
(WhiteSpace and LineTerminator code points of ECMA-262). -/
def isJsWhitespace (c : Char) : Bool :=
  c == '\t' || c == '\n' || c.val == 11 || c.val == 12 || c == '\r' || c == ' ' ||
  c.val == 0xA0 || c.val == 0x1680 ||
  (decide (0x2000 ≤ c.val) && decide (c.val ≤ 0x200A)) ||
  c.val == 0x2028 || c.val == 0x2029 || c.val == 0x202F || c.val == 0x205F ||
  c.val == 0x3000 || c.val == 0xFEFF

/-- `String.prototype.trim` as a list of characters. -/
def jsTrim (s : String) : List Char :=
  ((s.toList.dropWhile isJsWhitespace).reverse.dropWhile isJsWhitespace).reverse

/-- `addTask` of `App.tsx`: `if (!newTaskName.trim()) return;` — a
title whose trim is empty is a no-op; otherwise a new task with the
untrimmed title, a fresh id, a random color, no sessions and the
current instant is appended.  Id, color and instant are parameters. -/
def addTask (newId : String) (color : String) (createdNow : Int)
    (newTaskName : String) (st : AppState) : AppState :=
  if jsTrim newTaskName == [] then st
  else
    { st with tasks := st.tasks ++
        [{ id := newId, title := newTaskName, color := color,
           sessions := [], createdAt := createdNow }] }

/-- The interval effect of `App.tsx`: while `activeTaskId &&
startTime` is truthy the displayed duration is recomputed as
`Date.now() - startTime`; otherwise it is reset to `0`. -/
def tickUpdate (now : Int) (st : AppState) : AppState :=
  match st.activeTaskId, st.startTime with
  | some aid, some startT =>
    if aid == "" || startT == 0 then { st with currentSessionDuration := 0 }
    else { st with currentSessionDuration := now - startT }
  | _, _ => { st with currentSessionDuration := 0 }

/-- The per-task `isActive` test used by the task-list rendering of
`App.tsx` (`activeTaskId === task.id`). -/
def isActiveTask (st : AppState) (task : Task) : Bool :=
  st.activeTaskId == some task.id

/-- `getTaskTodayStats` of `App.tsx`: duration of today's closed
(truthy `endTime`) sessions, plus the live session duration when the
task is active; the count is the number of all stored sessions plus
one when the task is active. -/
def getTaskTodayStats (st : AppState) (today : Int) (task : Task) : Int × Nat :=
  let todaySessions := task.sessions.filter fun s =>
    (match s.endTime with
      | some e => !(e == 0)
      | none => false) && isSameDay s.startTime today
  let base := todaySessions.foldl (fun acc s => acc + s.duration) 0
  let todayDuration :=
    if st.activeTaskId == some task.id then base + st.currentSessionDuration else base
  let count := task.sessions.length + (if st.activeTaskId == some task.id then 1 else 0)
  (todayDuration, count)

/-! ### Statistics view (`components/Stats.tsx`) -/

/-- A task together with its aggregated window duration, as produced
by the spread `{...task, periodDuration}` in `Stats.tsx`. -/
structure AggTask extends Task where
  periodDuration : Int
  deriving DecidableEq

/-- The per-session filter of the `data` memo in `Stats.tsx`:
`if (!session.endTime) return false;` (truthiness, so an `endTime`
of exactly `0` is also rejected), then a window test on the session's
`startTime` according to the selected period. -/
def relevantSession (period : Period) (dateCursor : Int) (s : TimeSession) : Bool :=
  match s.endTime with
  | none => false
  | some e =>
    if e == 0 then false
    else
      match period with
      | Period.Today => isSameDay s.startTime dateCursor
      | Period.Week =>
          decide (getStartOfWeek dateCursor ≤ s.startTime) &&
          decide (s.startTime ≤ getEndOfWeek dateCursor)
      | Period.Month =>
          decide (getStartOfMonth dateCursor ≤ s.startTime) &&
          decide (s.startTime ≤ getEndOfMonth dateCursor)

/-- The `filteredTasks` intermediate of the `data` memo in
`Stats.tsx`: every task mapped to its window total, restricted to
positive totals. -/
def statsFilteredTasks (tasks : List Task) (period : Period) (dateCursor : Int) :
    List AggTask :=
  (tasks.map fun task =>
    let relevantSessions := task.sessions.filter (relevantSession period dateCursor)
    let totalDuration := relevantSessions.foldl (fun acc s => acc + s.duration) 0
    { toTask := task, periodDuration := totalDuration }
  ).filter fun t => decide (t.periodDuration > 0)

/-- The `data` memo of `Stats.tsx`.  ECMAScript's `Array.prototype.sort`
is stable, and with the comparator `(a, b) => b.periodDuration -
a.periodDuration` it places `a` no later than `b` exactly when
`b.periodDuration ≤ a.periodDuration`; the stable `List.mergeSort`
with that relation is the unique list ECMA-262 prescribes. -/
def statsData (tasks : List Task) (period : Period) (dateCursor : Int) : List AggTask :=
  (statsFilteredTasks tasks period dateCursor).mergeSort fun a b =>
    decide (b.periodDuration ≤ a.periodDuration)

/-- `handlePrev` of `Stats.tsx` (the date part: one day, week or
month backwards from the cursor). -/
def handlePrev (period : Period) (dateCursor : Int) : Int :=
  match period with
  | Period.Today => setDate dateCursor (getDate dateCursor - 1)
  | Period.Week => setDate dateCursor (getDate dateCursor - 7)
  | Period.Month => setMonth dateCursor (getMonth dateCursor - 1)

/-- `handleNext` of `Stats.tsx`. -/
def handleNext (period : Period) (dateCursor : Int) : Int :=
  match period with
  | Period.Today => setDate dateCursor (getDate dateCursor + 1)
  | Period.Week => setDate dateCursor (getDate dateCursor + 7)
  | Period.Month => setMonth dateCursor (getMonth dateCursor + 1)

/-! ### Insight service (`services/geminiService.ts`) -/

/-- Outcome of the external `ai.models.generateContent` call: a
response whose `text` field may be absent, or a thrown error. -/
inductive ServiceOutcome where
  | success (text : Option String)
  | failure (message : String)
  deriving DecidableEq

/-- `generateProductivityInsight` of `services/geminiService.ts`.
`Except.error` models a thrown error (the async function rejecting
its promise); `apiKeyEnv` models `process.env.API_KEY` (`none` for
undefined) and the outcome of the network call is a parameter.  The
`tasks`/`period` arguments only shape the prompt text and do not
influence control flow. -/
def generateProductivityInsight (apiKeyEnv : Option String) (tasks : List Task)
    (period : String) (outcome : ServiceOutcome) : Except String String :=
  if !(truthyStr apiKeyEnv) then Except.error "API Key not found"
  else
    match outcome with
    | ServiceOutcome.success text =>
        Except.ok
          (match text with
            | some s => if s == "" then "Unable to generate insight at this time." else s
            | none => "Unable to generate insight at this time.")
    | ServiceOutcome.failure _ =>
        Except.ok "An error occurred while fetching insights."

/-! ### Specification-side definitions

These transcribe the aggregation contract in the words of the
specification, for comparison with the implementation-side
definitions above. -/

/-- Specification wording (amended): a session counts toward the
window exactly when it is closed with a nonzero `endTime` and its
`startTime` lies in the window of the selected period around the
cursor. -/
def sessionCountsSpec (period : Period) (cursor : Int) (s : TimeSession) : Bool :=
  (match s.endTime with
    | some e => !(e == 0)
    | none => false) &&
  (match period with
    | Period.Today => isSameDay s.startTime cursor
    | Period.Week =>
        decide (getStartOfWeek cursor ≤ s.startTime ∧ s.startTime ≤ getEndOfWeek cursor)
    | Period.Month =>
        decide (getStartOfMonth cursor ≤ s.startTime ∧ s.startTime ≤ getEndOfMonth cursor))

/-- Specification wording: the windowed total of a task is the sum of
the durations of its counting sessions. -/
def periodDurationSpec (period : Period) (cursor : Int) (task : Task) : Int :=
  ((task.sessions.filter (sessionCountsSpec period cursor)).map TimeSession.duration).sum

/-- Specification wording: exactly the tasks with positive windowed
total, stably sorted by descending total. -/
def aggregateSpec (tasks : List Task) (period : Period) (cursor : Int) : List AggTask :=
  ((tasks.map fun task =>
      { toTask := task, periodDuration := periodDurationSpec period cursor task }).filter
    fun t => decide (0 < t.periodDuration)).mergeSort fun a b =>
      decide (b.periodDuration ≤ a.periodDuration)

/-- Closedness of a stored session: the `endTime` is present and the
`duration` is exactly `endTime - startTime`. -/
def SessionClosed (s : TimeSession) : Prop :=
  ∃ e, s.endTime = some e ∧ s.duration = e - s.startTime

/-- The session invariant of the data model: every stored session of
every task is closed with a consistent duration. -/
def SessionsInv (tasks : List Task) : Prop :=
  ∀ t ∈ tasks, ∀ s ∈ t.sessions, SessionClosed s

/-! ## Theorems

### The calendar round trip -/

set_option maxRecDepth 10000 in
theorem eraTable : (List.range 400).all eraCheck = true := by decide

theorem yoeNum_step (x : Int) (h1 : 0 ≤ x) (h2 : x ≤ 146095) :
    yoeNum x ≤ yoeNum (x + 1) := by
  unfold yoeNum; omega

theorem yoeNum_mono_aux (x : Int) (hx : 0 ≤ x) :
    ∀ k : Nat, x + (k : Int) ≤ 146096 → yoeNum x ≤ yoeNum (x + (k : Int)) := by
  intro k
  induction k with
  | zero => intro _; simp
  | succ n ih =>
      intro h
      have hcast : ((n + 1 : Nat) : Int) = (n : Int) + 1 := by push_cast; ring
      rw [hcast] at h ⊢
      have h1 := ih (by omega)
      have h2 := yoeNum_step (x + (n : Int)) (by omega) (by omega)
      have hre : x + ((n : Int) + 1) = x + (n : Int) + 1 := by ring
      rw [hre]
      exact h1.trans h2

theorem yoeNum_mono (x : Int) (hx : 0 ≤ x) :
    ∀ y, x ≤ y → y ≤ 146096 → yoeNum x ≤ yoeNum y := by
  intro y hxy hy
  have hk : x + (((y - x).toNat : Nat) : Int) = y := by omega
  have := yoeNum_mono_aux x hx (y - x).toNat (by omega)
  rwa [hk] at this

theorem yoeOfDoe_mono (x y : Int) (hx : 0 ≤ x) (hxy : x ≤ y) (hy : y ≤ 146096) :
    yoeOfDoe x ≤ yoeOfDoe y := by
  have h := yoeNum_mono x hx y hxy hy
  unfold yoeOfDoe
  omega

theorem eraFacts (k : Int) (h1 : 0 ≤ k) (h2 : k ≤ 399) :
    yoeOfDoe (yearStartOfEra k) = k ∧ yoeOfDoe (eraHi k) = k ∧
    0 ≤ yearStartOfEra k ∧ yearStartOfEra k ≤ 145731 ∧
    eraHi k ≤ 146096 ∧ eraHi k ≤ yearStartOfEra k + 365 ∧
    yearStartOfEra k ≤ eraHi k := by
  have hmem : k.toNat ∈ List.range 400 := List.mem_range.mpr (by omega)
  have h := List.all_eq_true.mp eraTable _ hmem
  have hk : (k.toNat : Int) = k := by omega
  simp only [eraCheck, hk, Bool.and_eq_true, beq_iff_eq, decide_eq_true_eq] at h
  exact ⟨h.1.1.1.1.1.1, h.1.1.1.1.1.2, h.1.1.1.1.2, h.1.1.1.2, h.1.1.2, h.1.2, h.2⟩

theorem yoe_bracket (doe : Int) (h1 : 0 ≤ doe) (h2 : doe ≤ 146096) :
    0 ≤ yoeOfDoe doe ∧ yoeOfDoe doe ≤ 399 ∧
    yearStartOfEra (yoeOfDoe doe) ≤ doe ∧
    doe ≤ yearStartOfEra (yoeOfDoe doe) + 365 := by
  have e0 := eraFacts 0 (by omega) (by omega)
  have e399 := eraFacts 399 (by omega) (by omega)
  have g0 : yearStartOfEra 0 = 0 := by norm_num [yearStartOfEra]
  have hi399 : eraHi 399 = 146096 := by norm_num [eraHi]
  have hlow : 0 ≤ yoeOfDoe doe := by
    have hm := yoeOfDoe_mono 0 doe (by omega) h1 h2
    have h0 := e0.1
    rw [g0] at h0
    omega
  have hhigh : yoeOfDoe doe ≤ 399 := by
    have hm := yoeOfDoe_mono doe 146096 h1 h2 (by omega)
    have h399 := e399.2.1
    rw [hi399] at h399
    omega
  have hglow : yearStartOfEra (yoeOfDoe doe) ≤ doe := by
    by_contra hcon
    push_neg at hcon
    have hyv1 : 1 ≤ yoeOfDoe doe := by
      rcases eq_or_lt_of_le hlow with h0 | h0
      · rw [← h0, g0] at hcon; omega
      · omega
    have ef := eraFacts (yoeOfDoe doe - 1) (by omega) (by omega)
    have hplus : yoeOfDoe doe - 1 + 1 = yoeOfDoe doe := by omega
    have hhiv : eraHi (yoeOfDoe doe - 1) = yearStartOfEra (yoeOfDoe doe) - 1 := by
      unfold eraHi
      rw [if_neg (by omega), hplus]
    have hmono := yoeOfDoe_mono doe (eraHi (yoeOfDoe doe - 1)) h1
      (by omega) (by omega)
    have := ef.2.1
    omega
  refine ⟨hlow, hhigh, hglow, ?_⟩
  rcases eq_or_lt_of_le hhigh with h399 | hlt
  · have := e399.2.2.2.2.2.1
    rw [hi399] at this
    rw [h399]
    omega
  · by_contra hcon
    push_neg at hcon
    have efv := eraFacts (yoeOfDoe doe) (by omega) (by omega)
    have ef1 := eraFacts (yoeOfDoe doe + 1) (by omega) (by omega)
    have hhiv : eraHi (yoeOfDoe doe) = yearStartOfEra (yoeOfDoe doe + 1) - 1 := by
      unfold eraHi
      rw [if_neg (by omega)]
    have hmono := yoeOfDoe_mono (yearStartOfEra (yoeOfDoe doe + 1)) doe
      ef1.2.2.1 (by have := efv.2.2.2.2.2.1; omega) h2
    have := ef1.1
    omega

theorem roundtrip_core (era yoe doy : Int)
    (hy0 : 0 ≤ yoe) (hy399 : yoe ≤ 399)
    (hdoy0 : 0 ≤ doy) (hdoy365 : doy ≤ 365) :
    daysFromCivil
      (if (5 * doy + 2) / 153 + (if (5 * doy + 2) / 153 < 10 then 3 else -9) ≤ 2
        then yoe + era * 400 + 1 else yoe + era * 400)
      ((5 * doy + 2) / 153 + (if (5 * doy + 2) / 153 < 10 then 3 else -9))
      (doy - (153 * ((5 * doy + 2) / 153) + 2) / 5 + 1)
      = era * 146097 + (yearStartOfEra yoe + doy) - 719468 := by
  simp only [daysFromCivil, yearStartOfEra]
  split_ifs <;>
    first
    | (rw [show (yoe + era * 400 + 1 - 1) / 400 = era from by omega]; omega)
    | (rw [show (yoe + era * 400) / 400 = era from by omega]; omega)
    | omega

theorem daysFromCivil_civilFromDays (z : Int) :
    daysFromCivil (civilFromDays z).1 (civilFromDays z).2.1 (civilFromDays z).2.2 = z := by
  obtain ⟨hy0, hy399, hb1, hb2⟩ :=
    yoe_bracket ((z + 719468) % 146097) (by omega) (by omega)
  have hcore := roundtrip_core ((z + 719468) / 146097)
    (yoeOfDoe ((z + 719468) % 146097))
    ((z + 719468) % 146097 - yearStartOfEra (yoeOfDoe ((z + 719468) % 146097)))
    hy0 hy399 (by omega) (by omega)
  exact hcore.trans (by omega)

theorem civilFromDays_month_range (z : Int) :
    1 ≤ (civilFromDays z).2.1 ∧ (civilFromDays z).2.1 ≤ 12 := by
  obtain ⟨hy0, hy399, hb1, hb2⟩ :=
    yoe_bracket ((z + 719468) % 146097) (by omega) (by omega)
  have h : (civilFromDays z).2.1 =
      (5 * ((z + 719468) % 146097 - yearStartOfEra (yoeOfDoe ((z + 719468) % 146097))) + 2) / 153 +
        (if (5 * ((z + 719468) % 146097 - yearStartOfEra (yoeOfDoe ((z + 719468) % 146097))) + 2) / 153 < 10
          then 3 else -9) := rfl
  rw [h]
  split_ifs <;> omega

/-! ### The `Date` interface lemmas -/

theorem daysFromCivil_linear (y m d : Int) :
    daysFromCivil y m d = daysFromCivil y m 1 + (d - 1) := by
  simp only [daysFromCivil]
  split_ifs <;> omega

theorem makeDay_of_fields (t n : Int) :
    makeDay (getFullYear t) (getMonth t) n = dayNumber t + (n - getDate t) := by
  have hm := civilFromDays_month_range (dayNumber t)
  have hrt := daysFromCivil_civilFromDays (dayNumber t)
  unfold makeDay getFullYear getMonth getDate
  have h12a : ((civilFromDays (dayNumber t)).2.1 - 1) / 12 = 0 := by omega
  have h12b : ((civilFromDays (dayNumber t)).2.1 - 1) % 12 + 1 =
      (civilFromDays (dayNumber t)).2.1 := by omega
  rw [h12a, h12b, add_zero]
  have hlin := daysFromCivil_linear (civilFromDays (dayNumber t)).1
    (civilFromDays (dayNumber t)).2.1 (civilFromDays (dayNumber t)).2.2
  omega

theorem setDate_shift (t n : Int) :
    setDate t n = (dayNumber t + (n - getDate t)) * msPerDay + timeWithinDay t := by
  unfold setDate
  rw [makeDay_of_fields]

theorem timeWithinDay_bounds (t : Int) :
    0 ≤ timeWithinDay t ∧ timeWithinDay t < 86400000 := by
  unfold timeWithinDay msPerDay; omega

theorem t_decomp (t : Int) : t = dayNumber t * 86400000 + timeWithinDay t := by
  unfold dayNumber timeWithinDay msPerDay; omega

theorem dayNumber_boundary (D : Int) : dayNumber (D * msPerDay) = D := by
  unfold dayNumber msPerDay; omega

theorem timeWithinDay_boundary (D : Int) : timeWithinDay (D * msPerDay) = 0 := by
  unfold timeWithinDay msPerDay; omega

theorem getDay_boundary (D : Int) : getDay (D * msPerDay) = (D + 4) % 7 := by
  unfold getDay dayNumber msPerDay; omega

theorem getDay_mul_add (D r : Int) (h0 : 0 ≤ r) (h1 : r < 86400000) :
    getDay (D * msPerDay + r) = (D + 4) % 7 := by
  unfold getDay dayNumber msPerDay; omega

theorem timeWithinDay_mul_add (D r : Int) (h0 : 0 ≤ r) (h1 : r < 86400000) :
    timeWithinDay (D * msPerDay + r) = r := by
  unfold timeWithinDay msPerDay; omega

theorem setHours_eval (D r hh mi ss ms : Int) (h0 : 0 ≤ r) (h1 : r < 86400000) :
    setHours (D * msPerDay + r) hh mi ss ms =
      D * msPerDay + (hh * 3600000 + mi * 60000 + ss * 1000 + ms) := by
  unfold setHours dayNumber msPerDay; omega

theorem getStartOfWeek_closed (t : Int) :
    getStartOfWeek t =
      (dayNumber t + (if getDay t = 0 then -6 else 1) - getDay t) * msPerDay := by
  simp only [getStartOfWeek]
  rw [setDate_shift]
  have harg : dayNumber t +
      (getDate t - getDay t + (if getDay t = 0 then -6 else 1) - getDate t) =
      dayNumber t + (if getDay t = 0 then -6 else 1) - getDay t := by omega
  rw [harg]
  have hb := timeWithinDay_bounds t
  rw [setHours_eval _ _ 0 0 0 0 hb.1 hb.2]
  norm_num

theorem getEndOfWeek_closed (t : Int) :
    getEndOfWeek t = getStartOfWeek t + 6 * msPerDay + 86399999 := by
  simp only [getEndOfWeek]
  rw [setDate_shift]
  have harg : dayNumber (getStartOfWeek t) +
      (getDate (getStartOfWeek t) + 6 - getDate (getStartOfWeek t)) =
      dayNumber (getStartOfWeek t) + 6 := by omega
  rw [harg]
  have hb := timeWithinDay_bounds (getStartOfWeek t)
  rw [setHours_eval _ _ 23 59 59 999 hb.1 hb.2]
  rw [getStartOfWeek_closed t, dayNumber_boundary]
  simp only [msPerDay]
  ring_nf

/-- **C6.** For every date `d`: `getStartOfWeek d ≤ d ≤ getEndOfWeek d`;
the start of the week is a Monday (weekday 1) at 00:00:00.000, the end
a Sunday (weekday 0) at 23:59:59.999 (86399999 ms into the day), and
the two are exactly 6 days 23:59:59.999 apart.  (The start is computed
with offset `-6` when the weekday index is Sunday = 0 and `1 - weekday`
otherwise — that is the definition of `getStartOfWeek`.) -/
theorem c6_week_bounds (t : Int) :
    getStartOfWeek t ≤ t ∧ t ≤ getEndOfWeek t ∧
    getDay (getStartOfWeek t) = 1 ∧ timeWithinDay (getStartOfWeek t) = 0 ∧
    getDay (getEndOfWeek t) = 0 ∧ timeWithinDay (getEndOfWeek t) = 86399999 ∧
    getEndOfWeek t - getStartOfWeek t = 6 * 86400000 + 86399999 := by
  have hS := getStartOfWeek_closed t
  have hE := getEndOfWeek_closed t
  have hd : getDay t = (dayNumber t + 4) % 7 := rfl
  have ht := t_decomp t
  have htw := timeWithinDay_bounds t
  have hE2 : getEndOfWeek t =
      (dayNumber t + (if getDay t = 0 then -6 else 1) - getDay t + 6) * msPerDay +
        86399999 := by
    rw [hE, hS]; ring
  have hgS : getDay (getStartOfWeek t) =
      (dayNumber t + (if getDay t = 0 then -6 else 1) - getDay t + 4) % 7 := by
    rw [hS]; exact getDay_boundary _
  have htS : timeWithinDay (getStartOfWeek t) = 0 := by
    rw [hS]; exact timeWithinDay_boundary _
  have hgE : getDay (getEndOfWeek t) =
      (dayNumber t + (if getDay t = 0 then -6 else 1) - getDay t + 6 + 4) % 7 := by
    rw [hE2]; exact getDay_mul_add _ _ (by norm_num) (by norm_num)
  have htE : timeWithinDay (getEndOfWeek t) = 86399999 := by
    rw [hE2]; exact timeWithinDay_mul_add _ _ (by norm_num) (by norm_num)
  by_cases h0 : getDay t = 0
  · rw [if_pos h0] at hS hE2 hgS hgE
    simp only [msPerDay] at hS hE2
    refine ⟨?_, ?_, ?_, htS, ?_, htE, ?_⟩ <;> omega
  · rw [if_neg h0] at hS hE2 hgS hgE
    simp only [msPerDay] at hS hE2
    refine ⟨?_, ?_, ?_, htS, ?_, htE, ?_⟩ <;> omega

/-- **C7.** `getCalendarGrid y m` has exactly 42 entries; they are
strictly consecutive calendar days (entry `i` is `s + i` days for the
grid start `s`); the grid starts on a Sunday lying on or before the
first of the requested month; and the first of the month sits at an
index in `[0, 6]`. -/
theorem c7_calendar_grid (year month : Int) :
    (getCalendarGrid year month).length = 42 ∧
    (∃ s : Int,
      getDay s = 0 ∧
      s ≤ mkDate year month 1 0 0 0 0 ∧
      mkDate year month 1 0 0 0 0 ≤ s + 6 * msPerDay ∧
      getCalendarGrid year month =
        (List.range 42).map (fun (i : Nat) => s + (i : Int) * msPerDay) ∧
      ∃ i : Nat, i < 7 ∧
        (getCalendarGrid year month)[i]! = mkDate year month 1 0 0 0 0) := by
  have hfirst : mkDate year month 1 0 0 0 0 = makeDay year month 1 * msPerDay := by
    simp only [mkDate]; norm_num
  have hd1 : dayNumber (mkDate year month 1 0 0 0 0) = makeDay year month 1 := by
    rw [hfirst]; exact dayNumber_boundary _
  have htw1 : timeWithinDay (mkDate year month 1 0 0 0 0) = 0 := by
    rw [hfirst]; exact timeWithinDay_boundary _
  have hgd1 : getDay (mkDate year month 1 0 0 0 0) = (makeDay year month 1 + 4) % 7 := by
    rw [hfirst]; exact getDay_boundary _
  have hgdb : 0 ≤ getDay (mkDate year month 1 0 0 0 0) ∧
      getDay (mkDate year month 1 0 0 0 0) < 7 := by
    rw [hgd1]; omega
  have hsd : setDate (mkDate year month 1 0 0 0 0)
      (getDate (mkDate year month 1 0 0 0 0) - getDay (mkDate year month 1 0 0 0 0)) =
      (makeDay year month 1 - getDay (mkDate year month 1 0 0 0 0)) * msPerDay := by
    rw [setDate_shift]
    have harg : dayNumber (mkDate year month 1 0 0 0 0) +
        (getDate (mkDate year month 1 0 0 0 0) - getDay (mkDate year month 1 0 0 0 0) -
          getDate (mkDate year month 1 0 0 0 0)) =
        makeDay year month 1 - getDay (mkDate year month 1 0 0 0 0) := by omega
    rw [harg, htw1, add_zero]
  have helem : ∀ n : Int,
      setDate ((makeDay year month 1 - getDay (mkDate year month 1 0 0 0 0)) * msPerDay)
        (getDate ((makeDay year month 1 - getDay (mkDate year month 1 0 0 0 0)) * msPerDay) + n) =
      (makeDay year month 1 - getDay (mkDate year month 1 0 0 0 0) + n) * msPerDay := by
    intro n
    rw [setDate_shift]
    have hDb := dayNumber_boundary
      (makeDay year month 1 - getDay (mkDate year month 1 0 0 0 0))
    have harg2 : dayNumber ((makeDay year month 1 -
          getDay (mkDate year month 1 0 0 0 0)) * msPerDay) +
        (getDate ((makeDay year month 1 - getDay (mkDate year month 1 0 0 0 0)) * msPerDay) + n -
          getDate ((makeDay year month 1 - getDay (mkDate year month 1 0 0 0 0)) * msPerDay)) =
        makeDay year month 1 - getDay (mkDate year month 1 0 0 0 0) + n := by omega
    rw [harg2, timeWithinDay_boundary, add_zero]
  have hgrid : getCalendarGrid year month =
      (List.range 42).map
        (fun (i : Nat) =>
          (makeDay year month 1 - getDay (mkDate year month 1 0 0 0 0) + (i : Int)) *
            msPerDay) := by
    simp only [getCalendarGrid]
    rw [hsd]
    exact List.map_congr_left fun i _ => helem (i : Int)
  refine ⟨?_,
    (makeDay year month 1 - getDay (mkDate year month 1 0 0 0 0)) * msPerDay,
    ?_, ?_, ?_, ?_, ?_⟩
  · rw [hgrid]; simp
  · have hb := getDay_boundary
      (makeDay year month 1 - getDay (mkDate year month 1 0 0 0 0))
    omega
  · simp only [msPerDay] at hfirst ⊢; omega
  · simp only [msPerDay] at hfirst ⊢; omega
  · rw [hgrid]
    exact List.map_congr_left fun i _ => by ring
  · refine ⟨(getDay (mkDate year month 1 0 0 0 0)).toNat, by omega, ?_⟩
    rw [hgrid]
    have hlt : (getDay (mkDate year month 1 0 0 0 0)).toNat <
        ((List.range 42).map
          (fun (i : Nat) =>
            (makeDay year month 1 - getDay (mkDate year month 1 0 0 0 0) + (i : Int)) *
              msPerDay)).length := by
      simp; omega
    rw [getElem!_pos
      ((List.range 42).map
        (fun (i : Nat) =>
          (makeDay year month 1 - getDay (mkDate year month 1 0 0 0 0) + (i : Int)) *
            msPerDay))
      ((getDay (mkDate year month 1 0 0 0 0)).toNat) hlt]
    rw [List.getElem_map, List.getElem_range]
    simp only [msPerDay] at hfirst ⊢
    omega

/-- **C10.** With `Period.Month` selected, the prev/next navigation
sets the month of the cursor keeping its day-of-month, so a
day-of-month exceeding the target month's length overflows past it:
pressing "previous" on 2025-03-31 yields 2025-03-03 (month and year
unchanged — the cursor stays in March instead of moving to
February). -/
theorem c10_month_nav :
    (∀ t : Int, handlePrev Period.Month t = setMonth t (getMonth t - 1)) ∧
    (∀ t : Int, handleNext Period.Month t = setMonth t (getMonth t + 1)) ∧
    handlePrev Period.Month (mkDate 2025 2 31 0 0 0 0) = mkDate 2025 2 3 0 0 0 0 ∧
    getMonth (handlePrev Period.Month (mkDate 2025 2 31 0 0 0 0)) =
      getMonth (mkDate 2025 2 31 0 0 0 0) ∧
    getFullYear (handlePrev Period.Month (mkDate 2025 2 31 0 0 0 0)) = 2025 ∧
    getMonth (handlePrev Period.Month (mkDate 2025 2 31 0 0 0 0)) = 2 ∧
    getDate (handlePrev Period.Month (mkDate 2025 2 31 0 0 0 0)) = 3 := by
  refine ⟨fun t => rfl, fun t => rfl, by decide, by decide, by decide, by decide, by decide⟩

/-! ### The insight service (C1) -/

/-- **C1, counterexample.** The claim says every failure — including a
missing API credential — is caught and converted to a fallback string.
In the source the `throw new Error("API Key not found")` sits outside
the `try`/`catch`, so with the credential absent the function throws
(rejects its promise) instead of returning a fallback: at this
concrete input the result is an error, not a value. -/
theorem c1_counterexample :
    generateProductivityInsight none [] "Today" (ServiceOutcome.success (some "text")) =
      Except.error "API Key not found" := rfl

/-- **C1, amended.** When the API credential is present (truthy), the
function never throws: a service failure is caught and mapped to the
fixed fallback string, and a successful call yields a value (the
response text or the empty-response fallback).  A missing or empty
credential, however, throws. -/
theorem c1_amended (apiKeyEnv : Option String) (tasks : List Task) (period : String)
    (outcome : ServiceOutcome) (hKey : truthyStr apiKeyEnv = true) :
    (∃ s, generateProductivityInsight apiKeyEnv tasks period outcome = Except.ok s) ∧
    (∀ msg, generateProductivityInsight apiKeyEnv tasks period (ServiceOutcome.failure msg) =
      Except.ok "An error occurred while fetching insights.") ∧
    (∀ key tasks2 period2 outcome2, truthyStr key = false →
      generateProductivityInsight key tasks2 period2 outcome2 =
        Except.error "API Key not found") := by
  refine ⟨?_, ?_, ?_⟩
  · unfold generateProductivityInsight
    rw [hKey]
    cases outcome with
    | success text => exact ⟨_, rfl⟩
    | failure msg => exact ⟨_, rfl⟩
  · intro msg
    unfold generateProductivityInsight
    rw [hKey]
    rfl
  · intro key tasks2 period2 outcome2 hk
    unfold generateProductivityInsight
    rw [hk]
    rfl

theorem c1_amended_witness :
    (∃ s, generateProductivityInsight (some "key") [] "Today"
        (ServiceOutcome.failure "network") = Except.ok s) ∧
    generateProductivityInsight (some "key") [] "Today" (ServiceOutcome.failure "network") =
      Except.ok "An error occurred while fetching insights." ∧
    generateProductivityInsight (some "") [] "Today"
        (ServiceOutcome.success (some "text")) =
      Except.error "API Key not found" := by
  have h := c1_amended (some "key") [] "Today" (ServiceOutcome.failure "network") (by decide)
  exact ⟨h.1, h.2.1 "network", h.2.2 (some "") [] "Today"
    (ServiceOutcome.success (some "text")) (by decide)⟩

/-! ### Rehydration of inconsistent persisted state (C2) -/

/-- **C2, counterexample.** The claim says a present `activeTaskId`
with absent `startTime` behaves as Idle with no task treated as
active.  In the source the rendering test `activeTaskId === task.id`
and the bucket count `sessions.length + (active ? 1 : 0)` consult only
`activeTaskId`, so the task is still displayed active and counted +1,
unlike the true Idle rehydration. -/
theorem c2_counterexample :
    isActiveTask (rehydrate (some [⟨"A", "Reading", "blue", [], 0⟩]) (some "A") none)
        ⟨"A", "Reading", "blue", [], 0⟩ = true ∧
    isActiveTask (rehydrate (some [⟨"A", "Reading", "blue", [], 0⟩]) none none)
        ⟨"A", "Reading", "blue", [], 0⟩ = false ∧
    (getTaskTodayStats (rehydrate (some [⟨"A", "Reading", "blue", [], 0⟩]) (some "A") none) 0
        ⟨"A", "Reading", "blue", [], 0⟩).2 = 1 ∧
    (getTaskTodayStats (rehydrate (some [⟨"A", "Reading", "blue", [], 0⟩]) none none) 0
        ⟨"A", "Reading", "blue", [], 0⟩).2 = 0 := by
  exact ⟨rfl, rfl, rfl, rfl⟩

/-- **C2, amended.** On rehydration with `activeTaskId` present but
`startTime` absent (or vice versa), no elapsed time accrues (the tick
effect leaves the displayed duration at 0) and `stopTimer` is a no-op
that records no session; no crash occurs (the embedding is total).
However, a task matching a present `activeTaskId` is still rendered
as active and its bucket count still receives +1 (see the
counterexample), so the state is Idle only with respect to timing and
session recording. -/
theorem c2_amended (savedTasks : Option (List Task)) (aid : Option String)
    (stm : Option Int) (now : Int) (sid : String)
    (h : aid = none ∨ stm = none) :
    tickUpdate now (rehydrate savedTasks aid stm) = rehydrate savedTasks aid stm ∧
    stopTimer now sid (rehydrate savedTasks aid stm) = rehydrate savedTasks aid stm := by
  rcases h with h | h
  · subst h
    exact ⟨rfl, rfl⟩
  · subst h
    cases aid with
    | none => exact ⟨rfl, rfl⟩
    | some a => exact ⟨rfl, rfl⟩

theorem c2_amended_witness :
    tickUpdate 99 (rehydrate (some []) (some "A") none) =
      rehydrate (some []) (some "A") none ∧
    stopTimer 99 "s" (rehydrate (some []) (some "A") none) =
      rehydrate (some []) (some "A") none :=
  c2_amended (some []) (some "A") none 99 "s" (Or.inr rfl)

/-! ### The bucket count (C8) -/

/-- **C8.** The "累计 N 次" bucket count equals the number of all
sessions ever stored for the task, plus 1 exactly when the task is
the currently active one; it does not depend on the reference day at
all (second conjunct), i.e. it is not windowed. -/
theorem c8_count_spec (st : AppState) (today : Int) (task : Task) :
    (getTaskTodayStats st today task).2 =
      task.sessions.length + (if st.activeTaskId == some task.id then 1 else 0) ∧
    (getTaskTodayStats st today task).2 = (getTaskTodayStats st 0 task).2 :=
  ⟨rfl, rfl⟩

/-! ### Add-task validation (C9) -/

theorem jsTrim_eq_nil_iff (s : String) :
    jsTrim s = [] ↔ ∀ c ∈ s.toList, isJsWhitespace c = true := by
  unfold jsTrim
  rw [List.reverse_eq_nil_iff, List.dropWhile_eq_nil_iff]
  constructor
  · intro h c hc
    rw [← List.takeWhile_append_dropWhile (p := isJsWhitespace) (l := s.toList)] at hc
    rcases List.mem_append.mp hc with h1 | h2
    · exact List.mem_takeWhile_imp h1
    · exact h c (by simpa using h2)
  · intro h c hc
    rw [List.mem_reverse] at hc
    exact h c ((List.dropWhile_sublist _).subset hc)

/-- **C9.** Submitting the add-task form with a title that is empty or
consists only of whitespace leaves the state (hence the task
collection) unchanged, and no error is raised (the handler is a total
function returning the state); for a title containing at least one
non-whitespace character a new task with an empty session list is
appended. -/
theorem c9_add_task (st : AppState) (newId color : String) (now : Int) (title : String) :
    ((∀ c ∈ title.toList, isJsWhitespace c = true) →
      addTask newId color now title st = st) ∧
    ((∃ c ∈ title.toList, isJsWhitespace c = false) →
      (addTask newId color now title st).tasks =
        st.tasks ++ [{ id := newId, title := title, color := color,
                       sessions := [], createdAt := now }]) := by
  constructor
  · intro h
    have hnil : jsTrim title = [] := (jsTrim_eq_nil_iff title).mpr h
    unfold addTask
    rw [if_pos (by rw [beq_iff_eq]; exact hnil)]
  · rintro ⟨c, hc, hw⟩
    have hne : ¬(jsTrim title == []) = true := by
      rw [beq_iff_eq]
      intro hnil
      have := (jsTrim_eq_nil_iff title).mp hnil c hc
      rw [this] at hw
      cases hw
    unfold addTask
    rw [if_neg hne]

theorem c9_witness :
    addTask "n1" "blue" 5 " " (AppState.mk [] none none 0) =
      AppState.mk [] none none 0 ∧
    (addTask "n1" "blue" 5 "read" (AppState.mk [] none none 0)).tasks =
      [] ++ [{ id := "n1", title := "read", color := "blue",
               sessions := [], createdAt := 5 }] := by
  refine ⟨(c9_add_task (AppState.mk [] none none 0) "n1" "blue" 5 " ").1 ?_,
    (c9_add_task (AppState.mk [] none none 0) "n1" "blue" 5 "read").2 ⟨'r', ?_, ?_⟩⟩
  · decide
  · decide
  · decide

/-! ### The timer state machine (C4) -/

/-- **C4.** Starting task `A` from Idle and then starting task `B`
appends to every task with id `A` (the unique task `A` when ids are
unique) exactly one closed session whose start is the instant of
`start(A)`, whose end is the instant of `start(B)` and whose duration
is their difference; every task whose id differs from `A` — in
particular `B` — is left untouched; the final state is Running(`B`).
`stop()` with no active task is a no-op (last conjunct).  The
hypotheses `A ≠ ""` and `t0 ≠ 0` reflect runtime guarantees (task ids
are UUIDs and instants are positive `Date.now()` values); an empty id
or zero start time would be falsy in the source's truthiness guards. -/
theorem c4_state_machine (st : AppState) (A B : String) (t0 t1 : Int)
    (sid1 sid2 : String)
    (hIdle : st.activeTaskId = none) (hA : A ≠ "") (ht0 : t0 ≠ 0) :
    (startTimer t1 sid2 B (startTimer t0 sid1 A st)).activeTaskId = some B ∧
    (startTimer t1 sid2 B (startTimer t0 sid1 A st)).startTime = some t1 ∧
    (startTimer t1 sid2 B (startTimer t0 sid1 A st)).tasks =
      st.tasks.map (fun t =>
        if t.id == A then
          { t with sessions := t.sessions ++
            [{ id := sid2, startTime := t0, endTime := some t1,
               duration := t1 - t0 }] }
        else t) ∧
    (∀ t ∈ (startTimer t1 sid2 B (startTimer t0 sid1 A st)).tasks,
      (t.id == A) = false → t ∈ st.tasks) ∧
    (∀ now sid (st2 : AppState), st2.activeTaskId = none →
      stopTimer now sid st2 = st2) := by
  have h1 : startTimer t0 sid1 A st =
      { st with activeTaskId := some A, startTime := some t0 } := by
    unfold startTimer
    rw [hIdle]
    rfl
  have htr : truthyStr (some A) = true := by
    simp [truthyStr, hA]
  have hguard : (A == "" || t0 == 0) = false := by
    simp [hA, ht0]
  have h2 : startTimer t1 sid2 B (startTimer t0 sid1 A st) =
      { st with
        tasks := st.tasks.map (fun t =>
          if t.id == A then
            { t with sessions := t.sessions ++
              [{ id := sid2, startTime := t0, endTime := some t1,
                 duration := t1 - t0 }] }
          else t),
        activeTaskId := some B, startTime := some t1,
        currentSessionDuration := 0 } := by
    rw [h1]
    unfold startTimer stopTimer
    dsimp only
    rw [htr, hguard]
    rfl
  refine ⟨by rw [h2], by rw [h2], by rw [h2], ?_, ?_⟩
  · intro t ht hne
    rw [h2] at ht
    dsimp only at ht
    rcases List.mem_map.mp ht with ⟨t0', ht0', heq⟩
    by_cases hid : (t0'.id == A) = true
    · rw [if_pos hid] at heq
      subst heq
      simp at hne hid
      exact absurd hid hne
    · rw [if_neg hid] at heq
      subst heq
      exact ht0'
  · intro now sid st2 h
    unfold stopTimer
    rw [h]

/-! ### The session invariant (C5) -/

theorem stopTimer_inv (st : AppState) (now : Int) (sid : String)
    (hInv : SessionsInv st.tasks) : SessionsInv (stopTimer now sid st).tasks := by
  unfold stopTimer
  cases haid : st.activeTaskId with
  | none => exact hInv
  | some aid =>
    cases hst : st.startTime with
    | none => exact hInv
    | some startT =>
      dsimp only
      by_cases hg : (aid == "" || startT == 0) = true
      · rw [if_pos hg]
        exact hInv
      · rw [if_neg hg]
        intro t ht s hs
        rcases List.mem_map.mp ht with ⟨t0, ht0, heq⟩
        by_cases hid : (t0.id == aid) = true
        · rw [if_pos hid] at heq
          subst heq
          dsimp only at hs
          rcases List.mem_append.mp hs with h | h
          · exact hInv t0 ht0 s h
          · rw [List.mem_singleton] at h
            subst h
            exact ⟨now, rfl, rfl⟩
        · rw [if_neg hid] at heq
          subst heq
          exact hInv t0 ht0 s hs

theorem startTimer_inv (st : AppState) (now : Int) (sid taskId : String)
    (hInv : SessionsInv st.tasks) : SessionsInv (startTimer now sid taskId st).tasks := by
  unfold startTimer
  dsimp only
  by_cases ht : truthyStr st.activeTaskId = true
  · rw [if_pos ht]
    exact stopTimer_inv st now sid hInv
  · rw [if_neg ht]
    exact hInv

/-- **C5.** Every stored session of every task is closed (`endTime`
present) with `duration = endTime - startTime`, and this invariant is
preserved by all five operations: add, start, stop, toggle and
delete.  A running session is never stored in a task list — the only
sessions ever appended are the closed ones built by `stopTimer`. -/
theorem c5_invariant (st : AppState) (hInv : SessionsInv st.tasks) :
    (∀ newId color now title, SessionsInv ((addTask newId color now title st).tasks)) ∧
    (∀ now sid taskId, SessionsInv ((startTimer now sid taskId st).tasks)) ∧
    (∀ now sid, SessionsInv ((stopTimer now sid st).tasks)) ∧
    (∀ now sid taskId, SessionsInv ((toggleTimer now sid taskId st).tasks)) ∧
    (∀ now sid id, SessionsInv ((deleteTask now sid id st).tasks)) := by
  refine ⟨?_, ?_, ?_, ?_, ?_⟩
  · intro newId color now title
    unfold addTask
    by_cases h : (jsTrim title == []) = true
    · rw [if_pos h]
      exact hInv
    · rw [if_neg h]
      intro t ht s hs
      rcases List.mem_append.mp ht with h1 | h1
      · exact hInv t h1 s hs
      · rw [List.mem_singleton] at h1
        subst h1
        cases hs
  · intro now sid taskId
    exact startTimer_inv st now sid taskId hInv
  · intro now sid
    exact stopTimer_inv st now sid hInv
  · intro now sid taskId
    unfold toggleTimer
    by_cases h : (st.activeTaskId == some taskId) = true
    · rw [if_pos h]
      exact stopTimer_inv st now sid hInv
    · rw [if_neg h]
      exact startTimer_inv st now sid taskId hInv
  · intro now sid id
    unfold deleteTask
    dsimp only
    intro t ht s hs
    by_cases h : (st.activeTaskId == some id) = true
    · rw [if_pos h] at ht
      have ht2 := (List.mem_filter.mp ht).1
      exact stopTimer_inv st now sid hInv t ht2 s hs
    · rw [if_neg h] at ht
      have ht2 := (List.mem_filter.mp ht).1
      exact hInv t ht2 s hs

theorem c4_witness :
    (startTimer 250 "s2" "b" (startTimer 100 "s1" "a"
        (AppState.mk [Task.mk "a" "Reading" "blue" [] 0,
                      Task.mk "b" "Math" "red" [] 0] none none 0))).activeTaskId =
      some "b" ∧
    (startTimer 250 "s2" "b" (startTimer 100 "s1" "a"
        (AppState.mk [Task.mk "a" "Reading" "blue" [] 0,
                      Task.mk "b" "Math" "red" [] 0] none none 0))).startTime =
      some 250 ∧
    (startTimer 250 "s2" "b" (startTimer 100 "s1" "a"
        (AppState.mk [Task.mk "a" "Reading" "blue" [] 0,
                      Task.mk "b" "Math" "red" [] 0] none none 0))).tasks =
      [Task.mk "a" "Reading" "blue" [] 0,
       Task.mk "b" "Math" "red" [] 0].map (fun t =>
        if t.id == "a" then
          { t with sessions := t.sessions ++
            [{ id := "s2", startTime := 100, endTime := some 250,
               duration := 250 - 100 }] }
        else t) ∧
    stopTimer 7 "x" (AppState.mk [] none none 0) = AppState.mk [] none none 0 := by
  have h := c4_state_machine
    (AppState.mk [Task.mk "a" "Reading" "blue" [] 0,
                  Task.mk "b" "Math" "red" [] 0] none none 0)
    "a" "b" 100 250 "s1" "s2" rfl (by decide) (by decide)
  exact ⟨h.1, h.2.1, h.2.2.1, h.2.2.2.2 7 "x" (AppState.mk [] none none 0) rfl⟩

theorem c5_witness :
    SessionsInv ((stopTimer 9 "s1"
      (AppState.mk [Task.mk "a" "T" "c" [TimeSession.mk "s0" 2 (some 7) 5] 0]
        (some "a") (some 3) 0)).tasks) ∧
    SessionsInv ((addTask "n" "c" 1 "hi"
      (AppState.mk [Task.mk "a" "T" "c" [TimeSession.mk "s0" 2 (some 7) 5] 0]
        (some "a") (some 3) 0)).tasks) := by
  have hInv : SessionsInv
      (AppState.mk [Task.mk "a" "T" "c" [TimeSession.mk "s0" 2 (some 7) 5] 0]
        (some "a") (some 3) 0).tasks := by
    intro t ht s hs
    rw [List.mem_singleton] at ht
    subst ht
    rw [List.mem_singleton] at hs
    subst hs
    exact ⟨7, rfl, rfl⟩
  have h := c5_invariant
    (AppState.mk [Task.mk "a" "T" "c" [TimeSession.mk "s0" 2 (some 7) 5] 0]
      (some "a") (some 3) 0) hInv
  exact ⟨h.2.2.1 9 "s1", h.1 "n" "c" 1 "hi"⟩

/-! ### The session aggregator (C3) -/

theorem relevantSession_eq_spec (period : Period) (cursor : Int) (s : TimeSession) :
    relevantSession period cursor s = sessionCountsSpec period cursor s := by
  unfold relevantSession sessionCountsSpec
  cases s.endTime with
  | none => cases period <;> rfl
  | some e =>
    dsimp only
    by_cases he : (e == 0) = true
    · rw [if_pos he]
      simp [he]
    · rw [if_neg he]
      have he2 : (e == 0) = false := by
        revert he; cases (e == 0) <;> simp
      rw [he2]
      cases period <;> simp [Bool.decide_and]

theorem foldl_add_durations (l : List TimeSession) :
    l.foldl (fun acc s => acc + s.duration) 0 = (l.map TimeSession.duration).sum := by
  suffices h : ∀ a : Int,
      l.foldl (fun acc s => acc + s.duration) a = a + (l.map TimeSession.duration).sum by
    simpa using h 0
  induction l with
  | nil => intro a; simp
  | cons x xs ih =>
      intro a
      simp only [List.foldl_cons, List.map_cons, List.sum_cons, ih]
      ring

theorem statsFilteredTasks_eq_spec (tasks : List Task) (period : Period) (cursor : Int) :
    statsFilteredTasks tasks period cursor =
      (tasks.map fun task =>
        ({ toTask := task,
           periodDuration := periodDurationSpec period cursor task } : AggTask)).filter
        fun t => decide (0 < t.periodDuration) := by
  unfold statsFilteredTasks
  have hmap : (tasks.map fun task =>
      ({ toTask := task,
         periodDuration :=
           (task.sessions.filter (relevantSession period cursor)).foldl
             (fun acc s => acc + s.duration) 0 } : AggTask)) =
      tasks.map fun task =>
        ({ toTask := task,
           periodDuration := periodDurationSpec period cursor task } : AggTask) := by
    apply List.map_congr_left
    intro task _
    have hfil : task.sessions.filter (relevantSession period cursor) =
        task.sessions.filter (sessionCountsSpec period cursor) :=
      List.filter_congr fun s _ => relevantSession_eq_spec period cursor s
    unfold periodDurationSpec
    rw [foldl_add_durations, hfil]
  rw [hmap]

/-- **C3, counterexample.** The claim states a session contributes
exactly when it is closed (`endTime` present) and starts in the
window.  The source's check is `if (!session.endTime) return false` —
a truthiness test — so a session whose `endTime` is present but equal
to `0` (the epoch) is rejected.  With one such session (positive
duration, `startTime` on the cursor's day) the aggregator returns the
empty list even though the claim demands the task appear. -/
theorem c3_counterexample :
    statsData [Task.mk "A" "reading" "blue" [TimeSession.mk "s" 0 (some 0) 5] 0]
      Period.Today 0 = [] ∧
    (TimeSession.mk "s" 0 (some 0) 5).endTime.isSome = true ∧
    isSameDay (TimeSession.mk "s" 0 (some 0) 5).startTime 0 = true ∧
    0 < (TimeSession.mk "s" 0 (some 0) 5).duration := by
  refine ⟨?_, rfl, by decide, by norm_num⟩
  simp [statsData, statsFilteredTasks, relevantSession]

/-- **C3, amended.** For every task collection, period and cursor the
aggregator output equals the specification-side aggregation
(`aggregateSpec`): exactly the tasks whose windowed total is
positive, where a session counts iff it is closed with a nonzero
(truthy) `endTime` and its `startTime` lies in the period's window
around the cursor (the cursor's civil day for Today,
`[getStartOfWeek, getEndOfWeek]` for Week, `[getStartOfMonth,
getEndOfMonth]` for Month).  The output is sorted by descending
`periodDuration` (second conjunct), contains exactly the positive
windowed tasks (third conjunct, a permutation), and ties keep the
original collection order (fourth conjunct: for every duration value
the subsequence with that value is exactly the one of the unsorted
filtered list). -/
theorem c3_amended (tasks : List Task) (period : Period) (cursor : Int) :
    statsData tasks period cursor = aggregateSpec tasks period cursor ∧
    List.Pairwise (fun a b => b.periodDuration ≤ a.periodDuration)
      (statsData tasks period cursor) ∧
    (statsData tasks period cursor).Perm (statsFilteredTasks tasks period cursor) ∧
    (∀ v : Int, (statsData tasks period cursor).filter
        (fun t => t.periodDuration == v) =
      (statsFilteredTasks tasks period cursor).filter
        (fun t => t.periodDuration == v)) := by
  have htrans : ∀ a b c : AggTask,
      (decide (b.periodDuration ≤ a.periodDuration)) = true →
      (decide (c.periodDuration ≤ b.periodDuration)) = true →
      (decide (c.periodDuration ≤ a.periodDuration)) = true := by
    intro a b c h1 h2
    simp only [decide_eq_true_eq] at h1 h2 ⊢
    omega
  have htotal : ∀ a b : AggTask,
      ((decide (b.periodDuration ≤ a.periodDuration)) ||
        (decide (a.periodDuration ≤ b.periodDuration))) = true := by
    intro a b
    simp only [Bool.or_eq_true, decide_eq_true_eq]
    omega
  refine ⟨?_, ?_, ?_, ?_⟩
  · unfold statsData aggregateSpec
    rw [statsFilteredTasks_eq_spec]
  · have hp := List.sorted_mergeSort htrans htotal (statsFilteredTasks tasks period cursor)
    exact hp.imp fun h => by simpa using h
  · exact List.mergeSort_perm _ _
  · intro v
    have hsub : ((statsFilteredTasks tasks period cursor).filter
        (fun t => t.periodDuration == v)).Sublist
        (statsFilteredTasks tasks period cursor) := List.filter_sublist _
    have hpw : ((statsFilteredTasks tasks period cursor).filter
        (fun t => t.periodDuration == v)).Pairwise
        (fun a b => (decide (b.periodDuration ≤ a.periodDuration)) = true) := by
      apply List.pairwise_of_forall_mem_list
      intro a ha b hb
      have ha2 := (List.mem_filter.mp ha).2
      have hb2 := (List.mem_filter.mp hb).2
      rw [beq_iff_eq] at ha2 hb2
      simp [ha2, hb2]
    have hsub2 := List.sublist_mergeSort htrans htotal hpw hsub
    have hcfilter : ((statsFilteredTasks tasks period cursor).filter
        (fun t => t.periodDuration == v)).filter (fun t => t.periodDuration == v) =
        (statsFilteredTasks tasks period cursor).filter
          (fun t => t.periodDuration == v) := by
      rw [List.filter_eq_self]
      intro a ha
      exact (List.mem_filter.mp ha).2
    have hsub3 := hsub2.filter (fun t => t.periodDuration == v)
    rw [hcfilter] at hsub3
    have hperm : (((statsFilteredTasks tasks period cursor).mergeSort
          (fun a b => decide (b.periodDuration ≤ a.periodDuration))).filter
        (fun t => t.periodDuration == v)).Perm
        ((statsFilteredTasks tasks period cursor).filter
          (fun t => t.periodDuration == v)) :=
      List.Perm.filter _ (List.mergeSort_perm _ _)
    exact (hsub3.eq_of_length hperm.length_eq.symm).symm

end FocusFlow
